import Mathlib

/-!
Shallow embedding of the langgraph-greeting-agent-typescript repository
(src/src/index.ts and its test suite).  The program defines a two-field
state record (`name`, `greeting`), a single node function `greetingNode`
that returns only the `greeting` delta, and a one-node graph runner whose
`invoke` initializes a working copy of the state, executes the node, and
merges the returned delta back into the working copy.
-/

namespace GreetingAgent

/-- Full state per the state schema in src/src/index.ts (lines 14-17):
two string fields, `name` (input) and `greeting` (output). -/
structure GreetingState where
  name : String
  greeting : String
deriving DecidableEq, Repr

/-- A partial state record, mirroring the TypeScript return type
`Partial<...>` of the node: each field may be absent. -/
structure PartialGreetingState where
  name : Option String := none
  greeting : Option String := none
deriving DecidableEq, Repr

/-- The node function `greetingNode` from src/src/index.ts (lines 28-34):
reads `name` from the state, builds the template string
`Hello, ${name}! Welcome!`, and returns only the `greeting` delta
(the `name` field is absent from the returned object). -/
def greetingNode (state : GreetingState) : PartialGreetingState :=
  let name := state.name
  let greetingMessage := "Hello, " ++ name ++ "! Welcome!"
  { greeting := some greetingMessage }

/-- Input accepted by the compiled graph runner: a record with a required
`name` and an optional `greeting` (the caller may omit `greeting`). -/
structure GreetingInput where
  name : String
  greeting : Option String := none
deriving DecidableEq, Repr

/-- Modelled from the spec: the graph library's state initialization for
`invoke` (the `StateGraph.compile().invoke` machinery is a library import,
not code under src/).  The spec states the runner initializes a working
copy from the partial input and that an absent `greeting` is treated as
the empty string at initialization; a supplied `greeting` value is placed
in the working copy but is then overwritten by the step's delta. -/
def initState (input : GreetingInput) : GreetingState :=
  { name := input.name, greeting := input.greeting.getD "" }

/-- Modelled from the spec: the graph library's delta merge (shallow field
overwrite onto the working copy; fields absent from the delta keep their
current value). -/
def mergeDelta (st : GreetingState) (delta : PartialGreetingState) : GreetingState :=
  { name := delta.name.getD st.name, greeting := delta.greeting.getD st.greeting }

/-- The runner built by `createGreetingGraph` (src/src/index.ts lines 43-54):
the graph is START → greetingNode → END, so `invoke` initializes the
working copy, runs the single node on it, and merges the node's delta
into the working copy before returning it. -/
def invoke (input : GreetingInput) : GreetingState :=
  let working := initState input
  let delta := greetingNode working
  mergeDelta working delta

/-- Converts a full output record back into a runner input, for feeding an
invocation's result into another invocation. -/
def toInput (st : GreetingState) : GreetingInput :=
  { name := st.name, greeting := some st.greeting }

/-- A caller-side record as a plain dynamic object: either field may be
absent (the caller's object literal may omit `name` or `greeting`). -/
structure RawInput where
  name : Option String := none
  greeting : Option String := none
deriving DecidableEq, Repr

/-- The JavaScript stringification a template literal applies to a
possibly-absent value: a present string passes through verbatim, an
absent field (read as undefined) stringifies as "undefined". -/
def jsInterp (v : Option String) : String :=
  v.getD "undefined"

/-- The node function as executed on a dynamically supplied record (there
is no runtime check anywhere in src/src/index.ts): `state.name` evaluates
to undefined when the field is absent, and the template literal
interpolates its stringification. -/
def greetingNodeDyn (state : RawInput) : PartialGreetingState :=
  let name := state.name
  let greetingMessage := "Hello, " ++ jsInterp name ++ "! Welcome!"
  { greeting := some greetingMessage }

/-- Modelled from the spec: the runner's invocation on a dynamically
supplied partial record (the library invoke machinery is an import, not
code under src/; its input type accepts partial records and it performs
no required-field check).  The working copy starts from whatever fields
are present, the node runs on it, and the delta is merged: `name` stays
as supplied (absent stays absent) and `greeting` is the node's output. -/
def invokeDyn (input : RawInput) : RawInput :=
  let delta := greetingNodeDyn input
  { name := input.name, greeting := delta.greeting }

/-- A heap of caller-visible records, addressed by natural numbers. -/
def Heap : Type := Nat → Option RawInput

/-- Writes the value v at address r of the heap. -/
def heapWrite (h : Heap) (r : Nat) (v : RawInput) : Heap :=
  fun x => if x = r then some v else h x

/-- Modelled from the spec: the runner's invocation over an explicit heap
of records (the library's `invoke` is an import, not code under src/).
The spec states the runner initializes a private working copy and never
aliases or mutates the caller's object: the model reads the fields of the
record at `inputRef`, allocates the working copy at the distinct address
`workRef`, and performs every write there; the record at `inputRef` is
never written through.  A record lacking `name` performs no run. -/
def invokeOnHeap (h : Heap) (inputRef workRef : Nat) : Heap × Option GreetingState :=
  match h inputRef with
  | none => (h, none)
  | some raw =>
    match raw.name with
    | none => (h, none)
    | some n =>
      let result := invoke { name := n, greeting := raw.greeting }
      (heapWrite h workRef { name := some result.name, greeting := some result.greeting },
       some result)

/-- The greeting step embedded with an explicit error channel: each
operation the node performs (a field read and the template-literal string
concatenation, src/src/index.ts lines 28-34) is total on string inputs,
so no error case is ever reached. -/
def greetingNodeE (state : GreetingState) : Except String PartialGreetingState :=
  let name := state.name
  let greetingMessage := "Hello, " ++ name ++ "! Welcome!"
  .ok { greeting := some greetingMessage }

/-- An ambient process environment: a partial map from variable names to
string values. -/
def Env : Type := String → Option String

/-- Whether the run is reported externally, per the tracing configuration
checks of the verification script: LANGCHAIN_TRACING_V2 must hold the
string "true" (compared case-insensitively). -/
def tracingEnabled (env : Env) : Bool :=
  match env "LANGCHAIN_TRACING_V2" with
  | some v => v.toLower == "true"
  | none => false

/-- An invocation with the ambient environment passed explicitly: the
environment decides only whether execution is reported externally (the
Bool component).  Nothing on the compute path of src/src/index.ts reads
the environment (the dotenv import only populates it), so the returned
record is computed by `invoke` from the input alone. -/
def invokeWithEnv (env : Env) (input : GreetingInput) : GreetingState × Bool :=
  (invoke input, tracingEnabled env)

/-- One concurrent invocation in flight: its own input name and its own
result slot, private to the task. -/
structure Task where
  input : String
  output : Option GreetingState
deriving DecidableEq, Repr

/-- Spawns one task per name, none of them run yet. -/
def initTasks (names : List String) : List Task :=
  names.map (fun n => { input := n, output := none })

/-- Runs one task to completion on its own private state: the task invokes
the runner on its own input and stores the result in its own slot. -/
def stepTask (t : Task) : Task :=
  { t with output := some (invoke { name := t.input }) }

/-- The scheduler lets task i advance; every other task's private state is
untouched (the tasks share no mutable resource). -/
def schedStep : List Task → Nat → List Task
  | [], _ => []
  | t :: ts, 0 => stepTask t :: ts
  | t :: ts, Nat.succ i => t :: schedStep ts i

/-- Runs the tasks under an arbitrary interleaving: the schedule lists, in
order, which task advances at each moment. -/
def runSched (ts : List Task) : List Nat → List Task
  | [] => ts
  | i :: rest => runSched (schedStep ts i) rest

end GreetingAgent

namespace GreetingAgent

/-- C1: for every string s (including the empty string), the greeting step
applied to a state whose name field is s returns the delta containing
exactly `greeting = "Hello, " ++ s ++ "! Welcome!"`, with the name passed
through verbatim; in particular s = "" yields "Hello, ! Welcome!". -/
theorem greetingNode_spec (s g : String) :
    greetingNode { name := s, greeting := g }
      = { name := none, greeting := some ("Hello, " ++ s ++ "! Welcome!") } ∧
    greetingNode { name := "", greeting := g }
      = { name := none, greeting := some "Hello, ! Welcome!" } := by
  constructor <;> rfl

/-- C2: for every string s, invoking the runner on `{ name := s }` returns a
record containing both fields: `name` equal to s and `greeting` equal to
`"Hello, " ++ s ++ "! Welcome!"`. -/
theorem invoke_spec (s : String) :
    invoke { name := s }
      = { name := s, greeting := "Hello, " ++ s ++ "! Welcome!" } := by
  rfl

/-- C5: for every input state, the delta returned by the greeting step has
the `greeting` field present and the `name` field absent (it is a
one-field delta). -/
theorem greetingNode_delta_only_greeting (st : GreetingState) :
    (greetingNode st).name = none ∧ ((greetingNode st).greeting).isSome = true := by
  constructor <;> rfl

/-- C10: the runner is idempotent on its own output: re-invoking on the
record returned by a previous invocation yields that same record. -/
theorem invoke_idempotent (s : String) :
    invoke (toInput (invoke { name := s })) = invoke { name := s } := by
  rfl

/-- C3 counterexample: invoking with the name field entirely absent does
not fail at all — the invocation succeeds and produces a greeting, with
the JS undefined value silently substituted into the message. -/
theorem missing_name_produces_greeting :
    (invokeDyn { name := none, greeting := none }).greeting
      = some "Hello, undefined! Welcome!" := by
  rfl

/-- C3 (amended): invoking the runner with the name field entirely absent
does not fail immediately and loudly — no runtime check exists, so the
greeting step silently interpolates the undefined value and the
invocation returns greeting "Hello, undefined! Welcome!" with name still
absent. -/
theorem missing_name_silently_defaults (raw : RawInput) (h : raw.name = none) :
    invokeDyn raw = { name := none, greeting := some "Hello, undefined! Welcome!" } := by
  simp [invokeDyn, greetingNodeDyn, jsInterp, h]

/-- Witness for the amended C3 at the concrete empty record. -/
theorem missing_name_silently_defaults_witness :
    ({ name := none, greeting := none } : RawInput).name = none ∧
    invokeDyn { name := none, greeting := none }
      = { name := none, greeting := some "Hello, undefined! Welcome!" } :=
  ⟨rfl, missing_name_silently_defaults { name := none, greeting := none } rfl⟩

/-- C4: a caller-supplied greeting is ignored: invoking with any supplied
greeting g returns the same final record as invoking without one; an
absent greeting is treated as the empty string at initialization; and the
name field is never defaulted (it is taken verbatim from the input). -/
theorem input_greeting_ignored (s g : String) :
    invoke { name := s, greeting := some g } = invoke { name := s } ∧
    initState { name := s } = { name := s, greeting := "" } ∧
    (initState { name := s, greeting := some g }).name = s := by
  exact ⟨rfl, rfl, rfl⟩

/-- C6: the runner never mutates the caller's record: after an invocation,
which works on a private copy at a distinct address, the heap at the
caller's address holds exactly the value it held before the call. -/
theorem invoke_no_mutation (h : Heap) (inputRef workRef : Nat)
    (hne : workRef ≠ inputRef) :
    (invokeOnHeap h inputRef workRef).1 inputRef = h inputRef := by
  have hne2 : inputRef ≠ workRef := Ne.symm hne
  rcases hr : h inputRef with _ | raw
  · simp [invokeOnHeap, hr]
  · rcases hn : raw.name with _ | n
    · simp [invokeOnHeap, hr, hn]
    · simp [invokeOnHeap, hr, hn, heapWrite, hne2]

/-- Witness heap for C6: one record, `\x7b name: "Alice" \x7d`, at address 0. -/
def heap0 : Heap :=
  fun x => if x = 0 then some { name := some "Alice", greeting := none } else none

/-- Witness for C6: invoking on the concrete heap with the working copy at
address 1 leaves the caller's record at address 0 untouched. -/
theorem invoke_no_mutation_witness :
    (1 : Nat) ≠ 0 ∧ (invokeOnHeap heap0 0 1).1 0 = heap0 0 :=
  ⟨by decide, invoke_no_mutation heap0 0 1 (by decide)⟩

/-- C7: the greeting step is pure and total: on every state it completes
with an ok result — never an error — equal to the pure node's delta, whose
greeting field holds the computed message. -/
theorem greetingNode_total (st : GreetingState) :
    greetingNodeE st = .ok (greetingNode st) ∧
    (greetingNode st).greeting = some ("Hello, " ++ st.name ++ "! Welcome!") := by
  exact ⟨rfl, rfl⟩

/-- C8: the computed record is independent of the observability/tracing
environment: any two environments (in particular the empty one) yield the
same returned record, which equals the plain invocation; the environment
influences only the reported-externally flag. -/
theorem invoke_env_independent (env1 env2 : Env) (input : GreetingInput) :
    (invokeWithEnv env1 input).1 = (invokeWithEnv env2 input).1 ∧
    (invokeWithEnv env1 input).1 = invoke input := by
  exact ⟨rfl, rfl⟩

lemma schedStep_get_ne (ts : List Task) (i j : Nat) (hij : i ≠ j) :
    (schedStep ts j).get? i = ts.get? i := by
  induction ts generalizing i j with
  | nil => rfl
  | cons t ts ih =>
    cases j with
    | zero =>
      cases i with
      | zero => exact absurd rfl hij
      | succ i => rfl
    | succ j =>
      cases i with
      | zero => rfl
      | succ i =>
        show (schedStep ts j).get? i = ts.get? i
        exact ih i j (by omega)

lemma schedStep_get_eq (ts : List Task) (i : Nat) :
    (schedStep ts i).get? i = (ts.get? i).map stepTask := by
  induction ts generalizing i with
  | nil => rfl
  | cons t ts ih =>
    cases i with
    | zero => rfl
    | succ i => exact ih i

lemma schedStep_input (ts : List Task) (j i : Nat) :
    ((schedStep ts j).get? i).map Task.input = (ts.get? i).map Task.input := by
  by_cases hij : i = j
  · subst hij
    rw [schedStep_get_eq]
    cases ts.get? i <;> rfl
  · rw [schedStep_get_ne ts i j hij]

lemma runSched_input (sched : List Nat) (ts : List Task) (i : Nat) :
    ((runSched ts sched).get? i).map Task.input = (ts.get? i).map Task.input := by
  induction sched generalizing ts with
  | nil => rfl
  | cons j rest ih =>
    show ((runSched (schedStep ts j) rest).get? i).map Task.input
      = (ts.get? i).map Task.input
    rw [ih (schedStep ts j)]
    exact schedStep_input ts j i

/-- A task has completed its own invocation: its output slot holds the
result of invoking the runner on its own input. -/
def TaskDone (t : Task) : Prop :=
  t.output = some (invoke { name := t.input })

lemma schedStep_preserves_done (ts : List Task) (j i : Nat)
    (h : ∀ t, ts.get? i = some t → TaskDone t) :
    ∀ t, (schedStep ts j).get? i = some t → TaskDone t := by
  intro t ht
  by_cases hij : i = j
  · subst hij
    rw [schedStep_get_eq] at ht
    rcases hts : ts.get? i with _ | u
    · rw [hts] at ht
      cases ht
    · rw [hts, Option.map_some'] at ht
      cases ht
      rfl
  · rw [schedStep_get_ne ts i j hij] at ht
    exact h t ht

lemma runSched_preserves_done (sched : List Nat) (ts : List Task) (i : Nat)
    (h : ∀ t, ts.get? i = some t → TaskDone t) :
    ∀ t, (runSched ts sched).get? i = some t → TaskDone t := by
  induction sched generalizing ts with
  | nil => exact h
  | cons j rest ih =>
    intro t ht
    exact ih (schedStep ts j) (schedStep_preserves_done ts j i h) t ht

lemma runSched_done_of_mem (sched : List Nat) :
    ∀ (ts : List Task) (i : Nat), i ∈ sched →
      ∀ t, (runSched ts sched).get? i = some t → TaskDone t := by
  induction sched with
  | nil =>
    intro ts i hi
    cases hi
  | cons j rest ih =>
    intro ts i hi t ht
    have ht2 : (runSched (schedStep ts j) rest).get? i = some t := ht
    rcases List.mem_cons.mp hi with hij | hmem
    · subst hij
      refine runSched_preserves_done rest (schedStep ts i) i ?_ t ht2
      intro u hu
      rw [schedStep_get_eq] at hu
      rcases hts : ts.get? i with _ | v
      · rw [hts] at hu
        cases hu
      · rw [hts, Option.map_some'] at hu
        cases hu
        rfl
    · exact ih (schedStep ts j) i hmem t ht2

lemma schedStep_length (ts : List Task) (j : Nat) :
    (schedStep ts j).length = ts.length := by
  induction ts generalizing j with
  | nil => rfl
  | cons t ts ih =>
    cases j with
    | zero => rfl
    | succ j =>
      show (schedStep ts j).length + 1 = ts.length + 1
      rw [ih j]

lemma runSched_length (sched : List Nat) (ts : List Task) :
    (runSched ts sched).length = ts.length := by
  induction sched generalizing ts with
  | nil => rfl
  | cons j rest ih =>
    show (runSched (schedStep ts j) rest).length = ts.length
    rw [ih (schedStep ts j), schedStep_length]

/-- C9: concurrent invocations are fully independent with no cross-talk:
under any interleaving schedule in which task i gets to run, the i-th
task's final state pairs the i-th input name with exactly the invocation
of that name, untouched by the other tasks (each task only ever works on
its own private state). -/
theorem concurrent_invocations_independent (names : List String) (sched : List Nat)
    (i : Nat) (hi : i ∈ sched) (hlen : i < names.length) :
    ∃ t, (runSched (initTasks names) sched).get? i = some t ∧
      t.input = names.getD i "" ∧
      t.output = some (invoke { name := names.getD i "" }) := by
  have hlen2 : i < (runSched (initTasks names) sched).length := by
    rw [runSched_length]
    simpa [initTasks] using hlen
  rcases hget : (runSched (initTasks names) sched).get? i with _ | t
  · rw [List.get?_eq_none] at hget
    omega
  · have hinput := runSched_input sched (initTasks names) i
    rw [hget] at hinput
    have hinit : (initTasks names).get? i = some { input := names.getD i "", output := none } := by
      rcases hn : names[i]? with _ | v
      · rw [List.getElem?_eq_none_iff] at hn
        omega
      · have hget2 : (initTasks names).get? i = some { input := v, output := none } := by
          simp [initTasks, List.get?_eq_getElem?, List.getElem?_map, hn]
        have hgd : names.getD i "" = v := by
          rw [List.getD_eq_getElem?_getD, hn]
          rfl
        rw [hget2, hgd]
    rw [hinit, Option.map_some', Option.map_some'] at hinput
    have heq : t.input = names.getD i "" := by
      injection hinput
    have hdone := runSched_done_of_mem sched (initTasks names) i hi t hget
    rw [TaskDone, heq] at hdone
    exact ⟨t, rfl, heq, hdone⟩

/-- Witness for C9: three names run under the schedule [2, 0, 1]; the first
task's result pairs "Alice" with the invocation on "Alice". -/
theorem concurrent_invocations_independent_witness :
    ((0 : Nat) ∈ [2, 0, 1] ∧ 0 < (["Alice", "Bob", "Charlie"] : List String).length) ∧
    ∃ t, (runSched (initTasks ["Alice", "Bob", "Charlie"]) [2, 0, 1]).get? 0 = some t ∧
      t.input = (["Alice", "Bob", "Charlie"] : List String).getD 0 "" ∧
      t.output = some (invoke { name := (["Alice", "Bob", "Charlie"] : List String).getD 0 "" }) :=
  ⟨⟨by decide, by decide⟩,
    concurrent_invocations_independent ["Alice", "Bob", "Charlie"] [2, 0, 1] 0
      (by decide) (by decide)⟩

end GreetingAgent
